import Mathlib

/-!
Verification development for the xaudial repository.

Shallow embedding of the core logic of the repository's five Python
sources, together with theorems settling the frozen claims:

* `src/spotipy2.py` — flow-state classification (`analyze_tracks`, lines
  160–190, here `analyze_track`), batching (lines 144–145, here
  `track_batches`), playlist aggregation (`collect_all_tracks`, lines
  100–118), and the batched feature-fetch loop
  (`get_audio_features_batch` / `analyze_tracks`).
* `src/consolidated_genres.py` — genre consolidation
  (`GenreConsolidator.get_main_genre`, `consolidate_genres`).
* `src/genre-split.py` — the artist-genre cache
  (`SpotifyGenreOrganizer.get_artist_genres`).

Python floats are modelled as exact rationals (ℚ), Python dicts as
insertion-ordered association lists, Python sets as `Finset`.
-/

/-- Embeds `FlowStateThresholds` (src/spotipy2.py lines 24–34), defaults
included.  Floats are modelled as rationals. -/
structure FlowStateThresholds where
  min_tempo : ℚ := 140
  max_tempo : ℚ := 900
  min_loudness : ℚ := -7
  max_loudness : ℚ := 0
  min_energy : ℚ := 0.85
  min_beat_confidence : ℚ := 0.9
  min_section_confidence : ℚ := 0.8
  min_section_duration : ℚ := 20
  mode : ℤ := 1
deriving DecidableEq

/-- The default thresholds instance built in `SpotifyFlowAnalyzer.__init__`
(`self.thresholds = FlowStateThresholds()`). -/
def flow_thresholds : FlowStateThresholds := {}

/-- The fields of one audio-features record consumed by the classifier
(`features['tempo']`, `features['loudness']`, `features['energy']`,
`features['mode']`). -/
structure FeatureRecord where
  tempo : ℚ
  loudness : ℚ
  energy : ℚ
  mode : ℤ
deriving DecidableEq

/-- The reason string `f"Tempo: {features['tempo']:.1f} BPM"` of
src/spotipy2.py line 165 (numeric rendering via `toString`). -/
def tempoReason (f : FeatureRecord) : String :=
  "Tempo: " ++ toString f.tempo ++ " BPM"

/-- The reason string `f"Loudness: {features['loudness']:.1f} dB"` of
src/spotipy2.py line 169. -/
def loudnessReason (f : FeatureRecord) : String :=
  "Loudness: " ++ toString f.loudness ++ " dB"

/-- The reason string `f"Energy: {features['energy']:.2f}"` of
src/spotipy2.py line 173. -/
def energyReason (f : FeatureRecord) : String :=
  "Energy: " ++ toString f.energy

/-- The reason string `"Minor mode"` of src/spotipy2.py line 177.
It carries no numeric value. -/
def modeReason : String := "Minor mode"

/-- Embeds the per-track classification block of
`SpotifyFlowAnalyzer.analyze_tracks` (src/spotipy2.py lines 160–177):
`meets_criteria` starts `True`, `reasons` starts empty, and the four
guard statements run in order, each failing guard clearing
`meets_criteria` and appending its reason string. -/
def analyze_track (th : FlowStateThresholds) (f : FeatureRecord) :
    Bool × List String :=
  let meets_criteria := true
  let reasons : List String := []
  let (meets_criteria, reasons) :=
    if ¬ (th.min_tempo ≤ f.tempo ∧ f.tempo ≤ th.max_tempo) then
      (false, reasons ++ [tempoReason f])
    else (meets_criteria, reasons)
  let (meets_criteria, reasons) :=
    if ¬ (th.min_loudness ≤ f.loudness ∧ f.loudness ≤ th.max_loudness) then
      (false, reasons ++ [loudnessReason f])
    else (meets_criteria, reasons)
  let (meets_criteria, reasons) :=
    if f.energy < th.min_energy then
      (false, reasons ++ [energyReason f])
    else (meets_criteria, reasons)
  let (meets_criteria, reasons) :=
    if f.mode ≠ th.mode then
      (false, reasons ++ [modeReason])
    else (meets_criteria, reasons)
  (meets_criteria, reasons)

/-- Embeds the batching comprehension of src/spotipy2.py lines 144–145
(`[track_ids[i:i + self.batch_size] for i in range(0, len(track_ids),
self.batch_size)]`) and the identical loop of src/upload.py lines 72–73:
`range(0, n, B)` enumerates `(n + B - 1) / B` start offsets `k * B`, and
the slice `l[k*B : k*B + B]` is `(l.drop (k * B)).take B`.  `B = 0` (for
which Python's `range` raises) yields `[]`. -/
def track_batches (B : ℕ) (l : List α) : List (List α) :=
  (List.range ((l.length + B - 1) / B)).map fun k => (l.drop (k * B)).take B

/-- Thresholds with the default numeric values, stated as integer-valued
rationals (`min_energy` rounded up to 1) so that concrete runs are
kernel-computable; used only to instantiate general theorems. -/
def sampleThresholds : FlowStateThresholds :=
  { min_tempo := 140, max_tempo := 900, min_loudness := -7,
    max_loudness := 0, min_energy := 1, min_beat_confidence := 1,
    min_section_confidence := 1, min_section_duration := 20, mode := 1 }

/-- First-match lookup in an association list; embeds Python dict lookup
(`track_metadata[track_id]`, `self.genre_cache[artist_id]`).  Keys of the
embedded dicts are unique, so first-match agrees with dict semantics. -/
def lookupEntry : List (String × β) → String → Option β
  | [], _ => none
  | p :: ps, k => if p.1 = k then some p.2 else lookupEntry ps k

/-- One entry of the raw playlist listing: `item['track']` may be `None`,
and a present track's `id` may be `None` (src/spotipy2.py line 103). -/
structure RawTrack where
  id : Option String
  name : String
  artists : List String
deriving DecidableEq

/-- One playlist as `collect_all_tracks` sees it after the network layer:
its identifier, its display name (`playlist_info[playlist_id]`), and the
listing returned by `get_playlist_tracks`. -/
structure PlaylistData where
  pid : String
  pname : String
  items : List (Option RawTrack)
deriving DecidableEq

/-- The value type of the `track_metadata` dict built by
`collect_all_tracks` (src/spotipy2.py lines 111–115): display name,
comma-joined artist names, and the list of playlist names appended at
line 116. -/
structure TrackMeta where
  name : String
  artists : String
  playlists : List String
deriving DecidableEq

/-- The mutable state of `collect_all_tracks`: the Python set
`all_track_ids` (a `Finset`: Python set iteration order is not modelled)
and the insertion-ordered dict `track_metadata`. -/
structure CollectState where
  all_track_ids : Finset String
  track_metadata : List (String × TrackMeta)

/-- Embeds the mutation `track_metadata[track_id]['playlists'].append(...)`
of src/spotipy2.py line 116 on the association-list model of the dict. -/
def appendPlaylist (pname track_id : String)
    (md : List (String × TrackMeta)) : List (String × TrackMeta) :=
  md.map fun p =>
    if p.1 = track_id then
      (p.1, ⟨p.2.name, p.2.artists, p.2.playlists ++ [pname]⟩)
    else p

/-- Embeds the body of the `for item in tracks:` loop of
`collect_all_tracks` (src/spotipy2.py lines 102–116): items whose track
or track id is missing are skipped; otherwise the id is added to the set,
a metadata entry is created on first sight (`playlists` empty), and the
playlist name is appended to the entry's `playlists` unconditionally. -/
def processItem (pname : String) (st : CollectState) (item : Option RawTrack) :
    CollectState :=
  match item with
  | none => st
  | some t =>
    match t.id with
    | none => st
    | some track_id =>
      let md :=
        if (lookupEntry st.track_metadata track_id).isSome then
          st.track_metadata
        else
          st.track_metadata ++
            [(track_id, ⟨t.name, ", ".intercalate t.artists, []⟩)]
      { all_track_ids := insert track_id st.all_track_ids,
        track_metadata := appendPlaylist pname track_id md }

/-- Embeds the per-playlist pass of `collect_all_tracks`
(src/spotipy2.py lines 102–116) over one playlist's items. -/
def processPlaylist (st : CollectState) (p : PlaylistData) : CollectState :=
  p.items.foldl (processItem p.pname) st

/-- Embeds `SpotifyFlowAnalyzer.collect_all_tracks` (src/spotipy2.py
lines 80–130) after the network layer: fold the per-playlist pass over
all playlists, starting from the empty set and empty dict.  The Python
function returns `list(all_track_ids)` — an enumeration of the set in
unspecified (hash-based) order — together with `track_metadata`; the
embedding returns the final state. -/
def collect_all_tracks (playlists : List PlaylistData) : CollectState :=
  playlists.foldl processPlaylist ⟨∅, []⟩

/-- The id carried by a raw playlist item, when the item has a track and
the track has an id (the guard of src/spotipy2.py line 103). -/
def itemId (item : Option RawTrack) : Option String :=
  item.bind RawTrack.id

/-- How many items of playlist `p` carry the track id `tid`. -/
def occInPlaylist (p : PlaylistData) (tid : String) : ℕ :=
  p.items.countP fun it => decide (itemId it = some tid)

/-- Total number of occurrences of the track id `tid` across all
playlists of the input. -/
def occCount (playlists : List PlaylistData) (tid : String) : ℕ :=
  (playlists.map fun p => occInPlaylist p tid).sum

/-- Length of the `playlists` list recorded for `tid` in the metadata
dict (`0` when `tid` has no entry). -/
def mdLen (st : CollectState) (tid : String) : ℕ :=
  ((lookupEntry st.track_metadata tid).map fun m => m.playlists.length).getD 0

/-- One row of the result DataFrame built by `analyze_tracks`
(src/spotipy2.py lines 179–190). -/
structure AnalysisRow where
  name : String
  artists : String
  id : String
  playlists : String
  meets_criteria : Bool
  reasons : String
  tempo : ℚ
  loudness : ℚ
  energy : ℚ
  mode : ℤ
deriving DecidableEq

/-- Embeds `SpotifyFlowAnalyzer.get_audio_features_batch`
(src/spotipy2.py lines 132–139).  The remote call
`self.sp.audio_features(track_ids)` is the oracle `fetchFn`: `none`
models the exception path (caught, logged, `time.sleep(2)`, `return
None` — no retry); the embedding additionally logs each remote
invocation's batch so attempts can be counted. -/
def get_audio_features_batch
    (fetchFn : List String → Option (List (Option FeatureRecord)))
    (calls : List (List String)) (track_ids : List String) :
    Option (List (Option FeatureRecord)) × List (List String) :=
  (fetchFn track_ids, calls ++ [track_ids])

/-- Builds one result row of `analyze_tracks` (src/spotipy2.py lines
157–190) from a track id and its feature record.  Python raises
`KeyError` when `track_metadata` lacks the id; callers always pass
complete metadata, and the embedding totalizes with an empty record. -/
def analyzeRow (th : FlowStateThresholds)
    (track_metadata : List (String × TrackMeta)) (track_id : String)
    (features : FeatureRecord) : AnalysisRow :=
  let metadata := (lookupEntry track_metadata track_id).getD ⟨"", "", []⟩
  let (meets_criteria, reasons) := analyze_track th features
  { name := metadata.name, artists := metadata.artists, id := track_id,
    playlists := "; ".intercalate metadata.playlists,
    meets_criteria := meets_criteria,
    reasons := if reasons.isEmpty then "All criteria met"
               else "; ".intercalate reasons,
    tempo := features.tempo, loudness := features.loudness,
    energy := features.energy, mode := features.mode }

/-- Embeds one iteration of the `for batch in track_batches:` loop of
`SpotifyFlowAnalyzer.analyze_tracks` (src/spotipy2.py lines 148–192):
call `get_audio_features_batch` once for the batch, skip the batch when
the result is falsy (`None` or `[]`), and otherwise, for each
`(track_id, features)` pair of `zip(batch, features_batch)` with present
features, append a result row. -/
def analyzeBatchStep
    (fetchFn : List String → Option (List (Option FeatureRecord)))
    (th : FlowStateThresholds) (track_metadata : List (String × TrackMeta))
    (st : List AnalysisRow × List (List String)) (batch : List String) :
    List AnalysisRow × List (List String) :=
  let (features_batch, calls) := get_audio_features_batch fetchFn st.2 batch
  match features_batch with
  | none => (st.1, calls)
  | some fs =>
    if fs.isEmpty then (st.1, calls)
    else
      ((batch.zip fs).foldl
        (fun results p =>
          match p.2 with
          | none => results
          | some features =>
            results ++ [analyzeRow th track_metadata p.1 features])
        st.1, calls)

/-- Embeds `SpotifyFlowAnalyzer.analyze_tracks` (src/spotipy2.py lines
141–194): partition the ids with `track_batches` (the analyzer
configures `self.batch_size = 50`; here a parameter) and fold
`analyzeBatchStep` over the batches.  Returns the accumulated result
rows together with the log of remote calls. -/
def analyze_tracks (fetchFn : List String → Option (List (Option FeatureRecord)))
    (th : FlowStateThresholds) (track_ids : List String)
    (track_metadata : List (String × TrackMeta)) (batch_size : ℕ) :
    List AnalysisRow × List (List String) :=
  (track_batches batch_size track_ids).foldl
    (analyzeBatchStep fetchFn th track_metadata) ([], [])

/-- One track record of `genre_tracks.json` as the consolidator uses it:
dedup is keyed on `track['id']` (src/consolidated_genres.py line 77);
the remaining dict fields are irrelevant to consolidation and are
represented by the display name. -/
structure GTrack where
  id : String
  name : String
deriving DecidableEq

/-- Embeds the literal taxonomy `self.genre_mappings` of
`GenreConsolidator.__init__` (src/consolidated_genres.py lines 10–44).
Python dict/set iteration order is modelled by the textual order; the
`__init__` method performs no validation of this table. -/
def genre_mappings : List (String × List String) := [
  ("ELECTRONIC",
    [
      "brostep", "dubstep", "drum and bass", "liquid funk", "dancefloor dnb",
      "uk dnb", "edm", "complextro", "electro house", "filthstep",
      "chillstep", "gaming edm", "deathstep", "future funk", "uk dance",
      "pop edm", "stateside dnb", "darksynth", "danish electronic",
      "progressive house", "synthpop", "bass trap", "canadian electronic",
      "hardcore techno", "bass house", "jump up", "deep liquid", "deep dnb",
      "austrian dnb", "drift phonk", "gym phonk", "dutch edm", "glitch",
      "hard trance", "progressive trance", "trance", "uplifting trance",
      "uk house", "electronic trap", "riddim dubstep", "fidget house",
      "synthwave", "hardwave", "future bass", "nz electronic",
      "memphis phonk", "phonk brasileiro", "progressive electro house",
      "vocal house", "old school bassline", "modern jungle", "aussietronica",
      "neurostep", "brazilian dnb", "jazzy dnb", "sambass", "ragga jungle",
      "belgian dnb", "big room", "slap house", "trance mexicano",
      "moombahton", "drumfunk", "eurodance", "europop", "italo dance",
      "speedrun", "gaming dubstep", "jungle", "neurofunk", "dark clubbing"
    ]),
  ("ROCK_METAL",
    [
      "rock", "alternative rock", "christian rock", "punk", "hard rock",
      "future rock", "classic rock", "permanent wave", "new romantic",
      "new wave", "album rock", "mellow gold", "soft rock",
      "alternative metal", "doom metal", "epic doom", "swedish doom metal",
      "early us punk", "hardcore punk", "dance rock", "post-punk",
      "new wave pop", "heartland rock", "singer-songwriter", "metal",
      "milwaukee indie", "j-rock", "visual kei", "pop punk", "ska",
      "skate punk", "socal pop punk", "madchester", "uk post-punk",
      "art punk", "synth punk", "dance-punk", "el paso indie", "emo",
      "post-hardcore", "glam rock", "country rock", "folk rock",
      "old school thrash", "thrash metal", "nu metal", "speed metal",
      "pop emo", "christian alternative rock"
    ]),
  ("JAPANESE_ANIME",
    [
      "vocaloid", "anime", "japanese progressive house", "otacore", "j-pixie",
      "anime rock", "kawaii future bass", "j-pop", "kawaii edm", "denpa-kei",
      "japanese vgm", "j-core", "japanese vtuber", "anime score", "j-metal",
      "seinen", "japanese soundtrack", "japanese classical",
      "japanese celtic", "seiyu", "vocaloid metal", "anime rap", "touhou",
      "pixie"
    ])
]
/-- Embeds Python's `str.lower()` (character-wise lower-casing; the
taxonomy and genre labels are ASCII). -/
def pyLower (s : String) : String := ⟨s.data.map Char.toLower⟩

/-- Embeds `GenreConsolidator.get_main_genre` (src/consolidated_genres.py
lines 46–52): lower-case the label, scan the taxonomy in iteration
order, return the first category whose subgenre set contains it, else
`"OTHER"`. -/
def get_main_genre (mappings : List (String × List String))
    (subgenre : String) : String :=
  let s := pyLower subgenre
  match mappings.find? (fun p => s ∈ p.2) with
  | some p => p.1
  | none => "OTHER"

/-- The consolidation state: per category, the bucket list
`main_genre_tracks[genre]` and the dedup set `seen_tracks[genre]`
(src/consolidated_genres.py lines 62–70). -/
def initBuckets (mappings : List (String × List String)) :
    List (String × List GTrack × Finset String) :=
  (mappings.map Prod.fst ++ ["OTHER"]).map fun c => (c, [], ∅)

/-- Embeds the body of the inner `for track in tracks:` loop of
`GenreConsolidator.consolidate_genres` (src/consolidated_genres.py lines
76–79): append the track to its main genre's bucket and record its id,
unless the id was already seen in that bucket. -/
def addTrack (main_genre : String)
    (st : List (String × List GTrack × Finset String)) (t : GTrack) :
    List (String × List GTrack × Finset String) :=
  st.map fun p =>
    if p.1 = main_genre then
      if t.id ∈ p.2.2 then p else (p.1, p.2.1 ++ [t], insert t.id p.2.2)
    else p

/-- Embeds `GenreConsolidator.consolidate_genres`
(src/consolidated_genres.py lines 54–104) up to the export layer:
initialize one (bucket, seen-set) pair per taxonomy category plus
`OTHER`, route every `(subgenre, tracks)` pair of the input through
`get_main_genre`, and keep — as the CSV-writing loop at lines 86–91
does — only the buckets with at least one track, in dict order. -/
def consolidate_genres (mappings : List (String × List String))
    (genre_data : List (String × List GTrack)) :
    List (String × List GTrack) :=
  let final := genre_data.foldl
    (fun st sg =>
      let main_genre := get_main_genre mappings sg.1
      sg.2.foldl (addTrack main_genre) st)
    (initBuckets mappings)
  (final.filter fun p => !p.2.1.isEmpty).map fun p => (p.1, p.2.1)

/-- The mutable state of `SpotifyGenreOrganizer` relevant to the genre
cache (src/genre-split.py line 21): the dict `self.genre_cache`, plus a
log of the artist ids for which a remote `self.sp.artist` call was
issued, so remote lookups can be counted. -/
structure OrganizerState where
  genre_cache : List (String × List String)
  remote_calls : List String
deriving DecidableEq

/-- Embeds `SpotifyGenreOrganizer.get_artist_genres` (src/genre-split.py
lines 23–35).  The remote call `self.sp.artist(artist_id)['genres']` is
the oracle `remote`: `none` models the exception path (caught, printed,
`return []` — nothing cached); a hit in `genre_cache` returns the cached
list without touching the oracle; a successful lookup stores its result
in the cache before returning it. -/
def get_artist_genres (remote : String → Option (List String))
    (st : OrganizerState) (artist_id : String) :
    List String × OrganizerState :=
  match lookupEntry st.genre_cache artist_id with
  | some genres => (genres, st)
  | none =>
    match remote artist_id with
    | some genres =>
      (genres, ⟨st.genre_cache ++ [(artist_id, genres)],
        st.remote_calls ++ [artist_id]⟩)
    | none => ([], ⟨st.genre_cache, st.remote_calls ++ [artist_id]⟩)

/-- The sequence of `get_artist_genres` calls performed during the rest
of a run of `organize_by_genre` (src/genre-split.py line 79), state
threaded left to right. -/
def runLookups (remote : String → Option (List String))
    (st : OrganizerState) (ids : List String) : OrganizerState :=
  ids.foldl (fun s i => (get_artist_genres remote s i).2) st

/-!
### Sanity checks of the embedding on concrete inputs
-/

example : track_batches 2 ["a", "b", "c"] = [["a", "b"], ["c"]] := by decide
example : track_batches 2 ([] : List String) = [] := by decide
example : analyze_track sampleThresholds ⟨150, -3, 1, 1⟩ = (true, []) := by decide
example : analyze_track sampleThresholds ⟨139, -3, 1, 0⟩
    = (false, [tempoReason ⟨139, -3, 1, 0⟩, modeReason]) := by decide
example :
    (analyze_tracks (fun _ => none) sampleThresholds ["a", "b", "c"] [] 2)
      = ([], [["a", "b"], ["c"]]) := by decide
example :
    (collect_all_tracks
        [⟨"p1", "P1", [some ⟨some "t1", "N", ["A"]⟩, none,
          some ⟨none, "X", []⟩, some ⟨some "t1", "N", ["A"]⟩]⟩]).track_metadata
      = [("t1", ⟨"N", "A", ["P1", "P1"]⟩)] := by decide
example : get_main_genre genre_mappings "EDM" = "ELECTRONIC" := by decide
example : get_main_genre genre_mappings "jazz" = "OTHER" := by decide
example :
    consolidate_genres [("ELECTRONIC", ["edm"]), ("ROCK_METAL", ["punk"])]
        [("EDM", [⟨"a", "A"⟩]), ("jazz", [⟨"b", "B"⟩])]
      = [("ELECTRONIC", [⟨"a", "A"⟩]), ("OTHER", [⟨"b", "B"⟩])] := by decide
example :
    get_artist_genres (fun _ => some ["edm"]) ⟨[], []⟩ "ar1"
      = (["edm"], ⟨[("ar1", ["edm"])], ["ar1"]⟩) := by decide
example :
    get_artist_genres (fun _ => none) ⟨[("ar1", ["edm"])], []⟩ "ar1"
      = (["edm"], ⟨[("ar1", ["edm"])], []⟩) := by decide

/-!
### Helper lemmas: batching
-/

lemma track_batches_nil (B : ℕ) : track_batches B ([] : List α) = [] := by
  simp only [track_batches, List.length_nil]
  have h : (0 + B - 1) / B = 0 := by
    rcases Nat.eq_zero_or_pos B with h | h
    · subst h; simp
    · exact Nat.div_eq_of_lt (by omega)
  rw [h]
  rfl

lemma track_batches_cons {B : ℕ} (hB : 0 < B) {l : List α} (hl : l ≠ []) :
    track_batches B l = l.take B :: track_batches B (l.drop B) := by
  unfold track_batches
  have hn : 1 ≤ l.length := List.length_pos.mpr hl
  have h1 : l.length + B - 1 = (l.length - 1) + B := by omega
  have h3 : (l.length - 1) / B = ((l.drop B).length + B - 1) / B := by
    simp only [List.length_drop]
    rcases Nat.lt_or_ge l.length B with h | h
    · have he : l.length - B = 0 := by omega
      rw [he, Nat.div_eq_of_lt (by omega), Nat.div_eq_of_lt (by omega)]
    · congr 1
      omega
  rw [h1, Nat.add_div_right _ hB, List.range_succ_eq_map]
  simp only [List.map_cons, List.map_map]
  congr 1
  · simp
  · rw [h3]
    apply List.map_congr_left
    intro k _
    simp only [Function.comp_apply]
    rw [List.drop_drop]
    congr 2
    rw [Nat.succ_mul, Nat.add_comm]

lemma track_batches_flatten {B : ℕ} (hB : 0 < B) (l : List α) :
    (track_batches B l).flatten = l := by
  have H : ∀ n (l : List α), l.length = n → (track_batches B l).flatten = l := by
    intro n
    induction n using Nat.strong_induction_on with
    | _ n ih =>
      intro l hl
      rcases eq_or_ne l [] with rfl | hne
      · simp [track_batches_nil]
      · have hlen : (l.drop B).length < n := by
          have : 1 ≤ l.length := List.length_pos.mpr hne
          simp only [List.length_drop]
          omega
        rw [track_batches_cons hB hne]
        simp only [List.flatten_cons]
        rw [ih _ hlen _ rfl, List.take_append_drop]
  exact H _ l rfl

lemma track_batches_length (B : ℕ) (l : List α) :
    (track_batches B l).length = (l.length + B - 1) / B := by
  simp [track_batches]

lemma track_batches_size_le (B : ℕ) (l : List α) :
    ∀ b ∈ track_batches B l, b.length ≤ B := by
  intro b hb
  simp only [track_batches, List.mem_map, List.mem_range] at hb
  obtain ⟨k, _, rfl⟩ := hb
  calc ((l.drop (k * B)).take B).length ≤ B := by
        rw [List.length_take]
        exact min_le_left _ _

/-!
### Helper lemmas: the feature-fetch loop
-/

lemma analyzeBatchStep_snd (fetchFn) (th : FlowStateThresholds)
    (md : List (String × TrackMeta)) (st : List AnalysisRow × List (List String))
    (batch : List String) :
    (analyzeBatchStep fetchFn th md st batch).2 = st.2 ++ [batch] := by
  unfold analyzeBatchStep get_audio_features_batch
  cases fetchFn batch with
  | none => rfl
  | some fs =>
    by_cases h : fs.isEmpty <;> simp [h]

lemma foldl_analyzeBatchStep_snd (fetchFn) (th : FlowStateThresholds)
    (md : List (String × TrackMeta)) :
    ∀ (bs : List (List String)) (st : List AnalysisRow × List (List String)),
      (bs.foldl (analyzeBatchStep fetchFn th md) st).2 = st.2 ++ bs := by
  intro bs
  induction bs with
  | nil => intro st; simp
  | cons b bs ih =>
    intro st
    rw [List.foldl_cons, ih]
    rw [analyzeBatchStep_snd]
    simp

lemma analyze_tracks_calls (fetchFn) (th : FlowStateThresholds)
    (ids : List String) (md : List (String × TrackMeta)) (B : ℕ) :
    (analyze_tracks fetchFn th ids md B).2 = track_batches B ids := by
  unfold analyze_tracks
  rw [foldl_analyzeBatchStep_snd]
  simp

lemma analyzeBatchStep_fail_fst (th : FlowStateThresholds)
    (md : List (String × TrackMeta)) (st : List AnalysisRow × List (List String))
    (batch : List String) :
    (analyzeBatchStep (fun _ => none) th md st batch).1 = st.1 := rfl

lemma analyze_tracks_fail_results (th : FlowStateThresholds)
    (ids : List String) (md : List (String × TrackMeta)) (B : ℕ) :
    (analyze_tracks (fun _ => none) th ids md B).1 = [] := by
  unfold analyze_tracks
  have H : ∀ (bs : List (List String)) (st : List AnalysisRow × List (List String)),
      (bs.foldl (analyzeBatchStep (fun _ => none) th md) st).1 = st.1 := by
    intro bs
    induction bs with
    | nil => intro st; rfl
    | cons b bs ih =>
      intro st
      rw [List.foldl_cons, ih, analyzeBatchStep_fail_fst]
  rw [H]

/-!
### Helper lemmas: classifier
-/

lemma analyze_track_eq (th : FlowStateThresholds) (f : FeatureRecord) :
    analyze_track th f =
      (decide (th.min_tempo ≤ f.tempo ∧ f.tempo ≤ th.max_tempo) &&
        (decide (th.min_loudness ≤ f.loudness ∧ f.loudness ≤ th.max_loudness) &&
          (decide (th.min_energy ≤ f.energy) && decide (f.mode = th.mode))),
      (if th.min_tempo ≤ f.tempo ∧ f.tempo ≤ th.max_tempo then []
        else [tempoReason f]) ++
      ((if th.min_loudness ≤ f.loudness ∧ f.loudness ≤ th.max_loudness then []
        else [loudnessReason f]) ++
      ((if th.min_energy ≤ f.energy then [] else [energyReason f]) ++
        (if f.mode = th.mode then [] else [modeReason])))) := by
  unfold analyze_track
  by_cases h1 : th.min_tempo ≤ f.tempo ∧ f.tempo ≤ th.max_tempo <;>
    by_cases h2 : th.min_loudness ≤ f.loudness ∧ f.loudness ≤ th.max_loudness <;>
      by_cases h3 : f.energy < th.min_energy <;>
        by_cases h4 : f.mode = th.mode <;>
          simp [h1, h2, h3, h4, not_lt.mp, le_of_not_lt, not_le.mpr]

lemma head_tempoReason (f : FeatureRecord) :
    (tempoReason f).data.head? = some 'T' := by
  simp [tempoReason, String.data_append]

lemma head_loudnessReason (f : FeatureRecord) :
    (loudnessReason f).data.head? = some 'L' := by
  simp [loudnessReason, String.data_append]

lemma head_energyReason (f : FeatureRecord) :
    (energyReason f).data.head? = some 'E' := by
  simp [energyReason, String.data_append]

lemma head_modeReason : modeReason.data.head? = some 'M' := by
  simp [modeReason]

lemma tempoReason_ne_loudnessReason (f g : FeatureRecord) :
    tempoReason f ≠ loudnessReason g := by
  intro h
  have h' := congrArg (fun s => s.data.head?) h
  simp only [head_tempoReason, head_loudnessReason] at h'
  exact absurd h' (by decide)

lemma tempoReason_ne_energyReason (f g : FeatureRecord) :
    tempoReason f ≠ energyReason g := by
  intro h
  have h' := congrArg (fun s => s.data.head?) h
  simp only [head_tempoReason, head_energyReason] at h'
  exact absurd h' (by decide)

lemma tempoReason_ne_modeReason (f : FeatureRecord) :
    tempoReason f ≠ modeReason := by
  intro h
  have h' := congrArg (fun s => s.data.head?) h
  simp only [head_tempoReason, head_modeReason] at h'
  exact absurd h' (by decide)

lemma tempoReason_mem_iff (th : FlowStateThresholds) (f : FeatureRecord) :
    tempoReason f ∈ (analyze_track th f).2 ↔
      ¬ (th.min_tempo ≤ f.tempo ∧ f.tempo ≤ th.max_tempo) := by
  rw [analyze_track_eq]
  by_cases h1 : th.min_tempo ≤ f.tempo ∧ f.tempo ≤ th.max_tempo <;>
    by_cases h2 : th.min_loudness ≤ f.loudness ∧ f.loudness ≤ th.max_loudness <;>
      by_cases h3 : th.min_energy ≤ f.energy <;>
        by_cases h4 : f.mode = th.mode <;>
          simp [h1, h2, h3, h4, tempoReason_ne_loudnessReason,
            tempoReason_ne_energyReason, tempoReason_ne_modeReason]

lemma analyze_track_reasons_nil_iff (th : FlowStateThresholds)
    (f : FeatureRecord) :
    (analyze_track th f).2 = [] ↔ (analyze_track th f).1 = true := by
  rw [analyze_track_eq]
  by_cases h1 : th.min_tempo ≤ f.tempo ∧ f.tempo ≤ th.max_tempo <;>
    by_cases h2 : th.min_loudness ≤ f.loudness ∧ f.loudness ≤ th.max_loudness <;>
      by_cases h3 : th.min_energy ≤ f.energy <;>
        by_cases h4 : f.mode = th.mode <;>
          simp [h1, h2, h3, h4]

/-!
### Helper lemmas: aggregation
-/

lemma lookupEntry_append_of_some {l : List (String × β)} {k : String} {v : β}
    (h : lookupEntry l k = some v) (m : List (String × β)) :
    lookupEntry (l ++ m) k = some v := by
  induction l with
  | nil => simp [lookupEntry] at h
  | cons p ps ih =>
    by_cases hp : p.1 = k <;> simp_all [lookupEntry, hp]

lemma lookupEntry_append_of_none {l : List (String × β)} {k : String}
    (h : lookupEntry l k = none) (m : List (String × β)) :
    lookupEntry (l ++ m) k = lookupEntry m k := by
  induction l with
  | nil => simp
  | cons p ps ih =>
    by_cases hp : p.1 = k <;> simp_all [lookupEntry, hp]


lemma lookupEntry_eq_none_iff (l : List (String × β)) (k : String) :
    lookupEntry l k = none ↔ k ∉ l.map Prod.fst := by
  induction l with
  | nil => simp [lookupEntry]
  | cons p ps ih =>
    simp only [lookupEntry, List.map_cons, List.mem_cons]
    by_cases h : p.1 = k
    · subst h
      simp
    · rw [if_neg h, ih]
      constructor
      · intro hh hcon
        rcases hcon with hceq | hcm
        · exact h hceq.symm
        · exact hh hcm
      · intro hh
        exact fun hm => hh (Or.inr hm)

lemma appendPlaylist_cons_pos {p : String × TrackMeta} {tid : String}
    (h : p.1 = tid) (pname : String) (ps : List (String × TrackMeta)) :
    appendPlaylist pname tid (p :: ps) =
      (p.1, ⟨p.2.name, p.2.artists, p.2.playlists ++ [pname]⟩) ::
        appendPlaylist pname tid ps := by
  simp [appendPlaylist, h]

lemma appendPlaylist_cons_neg {p : String × TrackMeta} {tid : String}
    (h : ¬ p.1 = tid) (pname : String) (ps : List (String × TrackMeta)) :
    appendPlaylist pname tid (p :: ps) = p :: appendPlaylist pname tid ps := by
  simp [appendPlaylist, h]

lemma lookupEntry_appendPlaylist_self (pname tid : String)
    (md : List (String × TrackMeta)) :
    lookupEntry (appendPlaylist pname tid md) tid =
      (lookupEntry md tid).map fun m =>
        ⟨m.name, m.artists, m.playlists ++ [pname]⟩ := by
  induction md with
  | nil => simp [appendPlaylist, lookupEntry]
  | cons p ps ih =>
    by_cases hp : p.1 = tid
    · rw [appendPlaylist_cons_pos hp]
      simp only [lookupEntry]
      rw [if_pos hp, if_pos hp]
      rfl
    · rw [appendPlaylist_cons_neg hp]
      simp only [lookupEntry]
      rw [if_neg hp, if_neg hp]
      exact ih

lemma lookupEntry_appendPlaylist_ne {k tid : String} (hk : k ≠ tid)
    (pname : String) (md : List (String × TrackMeta)) :
    lookupEntry (appendPlaylist pname tid md) k = lookupEntry md k := by
  induction md with
  | nil => simp [appendPlaylist, lookupEntry]
  | cons p ps ih =>
    by_cases hp : p.1 = tid
    · have hpk : ¬ (p.1 = k) := fun hh => hk (hh.symm.trans hp)
      rw [appendPlaylist_cons_pos hp]
      simp only [lookupEntry]
      rw [if_neg hpk, if_neg hpk]
      exact ih
    · rw [appendPlaylist_cons_neg hp]
      simp only [lookupEntry]
      by_cases hpk : p.1 = k
      · rw [if_pos hpk, if_pos hpk]
      · rw [if_neg hpk, if_neg hpk]
        exact ih

lemma keys_appendPlaylist (pname tid : String)
    (md : List (String × TrackMeta)) :
    (appendPlaylist pname tid md).map Prod.fst = md.map Prod.fst := by
  induction md with
  | nil => rfl
  | cons p ps ih =>
    by_cases hp : p.1 = tid
    · rw [appendPlaylist_cons_pos hp]
      simp only [List.map_cons]
      rw [ih]
    · rw [appendPlaylist_cons_neg hp]
      simp only [List.map_cons]
      rw [ih]

lemma processItem_keys_nodup (pname : String) (st : CollectState)
    (item : Option RawTrack)
    (h : (st.track_metadata.map Prod.fst).Nodup) :
    ((processItem pname st item).track_metadata.map Prod.fst).Nodup := by
  cases item with
  | none => exact h
  | some t =>
    cases hid : t.id with
    | none => simpa [processItem, hid] using h
    | some tid =>
      simp only [processItem, hid]
      rw [keys_appendPlaylist]
      by_cases hs : (lookupEntry st.track_metadata tid).isSome
      · simpa [hs] using h
      · have hn : lookupEntry st.track_metadata tid = none :=
          Option.not_isSome_iff_eq_none.mp hs
        have hmem : tid ∉ st.track_metadata.map Prod.fst :=
          (lookupEntry_eq_none_iff _ _).mp hn
        simp [hs, List.nodup_append, h, hmem, List.disjoint_singleton]

lemma processItem_mdLen (pname : String) (st : CollectState)
    (item : Option RawTrack) (tid : String) :
    mdLen (processItem pname st item) tid =
      mdLen st tid + (if itemId item = some tid then 1 else 0) := by
  cases item with
  | none => simp [processItem, itemId]
  | some t =>
    cases hid : t.id with
    | none => simp [processItem, itemId, hid]
    | some tid' =>
      by_cases he : tid' = tid
      · subst he
        by_cases hs : (lookupEntry st.track_metadata tid').isSome
        · obtain ⟨m, hm⟩ := Option.isSome_iff_exists.mp hs
          simp [processItem, hid, hs, mdLen, itemId,
            lookupEntry_appendPlaylist_self, hm]
        · have hn : lookupEntry st.track_metadata tid' = none :=
            Option.not_isSome_iff_eq_none.mp hs
          simp [processItem, hid, hs, mdLen, itemId,
            lookupEntry_appendPlaylist_self,
            lookupEntry_append_of_none hn, lookupEntry, hn]
      · have hne : ¬ (itemId (some t) = some tid) := by
          simp [itemId, hid, he]
        have hkt : tid ≠ tid' := fun hh => he hh.symm
        simp only [processItem, hid, hne, if_neg]
        by_cases hs : (lookupEntry st.track_metadata tid').isSome
        · simp [hs, mdLen, lookupEntry_appendPlaylist_ne hkt]
        · have hn : lookupEntry st.track_metadata tid' = none :=
            Option.not_isSome_iff_eq_none.mp hs
          simp only [hs, if_neg, Bool.false_eq_true, ite_false, mdLen,
            lookupEntry_appendPlaylist_ne hkt]
          cases hlk : lookupEntry st.track_metadata tid with
          | none =>
            rw [lookupEntry_append_of_none hlk]
            simp [lookupEntry, he]
          | some m =>
            rw [lookupEntry_append_of_some hlk]
            simp [hlk]

lemma processItem_isSome (pname : String) (st : CollectState)
    (item : Option RawTrack) (tid : String) :
    (lookupEntry (processItem pname st item).track_metadata tid).isSome ↔
      ((lookupEntry st.track_metadata tid).isSome ∨ itemId item = some tid) := by
  cases item with
  | none => simp [processItem, itemId]
  | some t =>
    cases hid : t.id with
    | none => simp [processItem, itemId, hid]
    | some tid'
    =>
      by_cases he : tid' = tid
      · subst he
        simp only [processItem, itemId, hid, Option.bind_some]
        by_cases hs : (lookupEntry st.track_metadata tid').isSome
        · obtain ⟨m, hm⟩ := Option.isSome_iff_exists.mp hs
          simp [hs, lookupEntry_appendPlaylist_self, hm]
        · have hn : lookupEntry st.track_metadata tid' = none :=
            Option.not_isSome_iff_eq_none.mp hs
          simp [hs, hid, lookupEntry_appendPlaylist_self,
            lookupEntry_append_of_none hn, lookupEntry]
      · have hne : ¬ (itemId (some t) = some tid) := by
          simp [itemId, hid, he]
        have hkt : tid ≠ tid' := fun hh => he hh.symm
        simp only [processItem, hid, hne, or_false]
        by_cases hs : (lookupEntry st.track_metadata tid').isSome
        · simp [hs, lookupEntry_appendPlaylist_ne hkt]
        · have hn : lookupEntry st.track_metadata tid' = none :=
            Option.not_isSome_iff_eq_none.mp hs
          simp only [hs, Bool.false_eq_true, ite_false,
            lookupEntry_appendPlaylist_ne hkt]
          cases hlk : lookupEntry st.track_metadata tid with
          | none =>
            rw [lookupEntry_append_of_none hlk]
            simp [lookupEntry, he]
          | some m =>
            rw [lookupEntry_append_of_some hlk]

lemma foldl_processItem_mdLen (pname : String) (tid : String)
    (items : List (Option RawTrack)) :
    ∀ st : CollectState,
      mdLen (items.foldl (processItem pname) st) tid =
        mdLen st tid +
          items.countP (fun it => decide (itemId it = some tid)) := by
  induction items with
  | nil => intro st; simp
  | cons it its ih =>
    intro st
    rw [List.foldl_cons, ih, processItem_mdLen, List.countP_cons]
    by_cases hd : itemId it = some tid <;> simp [hd] <;> omega

lemma foldl_processItem_isSome (pname : String) (tid : String)
    (items : List (Option RawTrack)) :
    ∀ st : CollectState,
      (lookupEntry (items.foldl (processItem pname) st).track_metadata
          tid).isSome ↔
        ((lookupEntry st.track_metadata tid).isSome ∨
          0 < items.countP (fun it => decide (itemId it = some tid))) := by
  induction items with
  | nil => intro st; simp
  | cons it its ih =>
    intro st
    rw [List.foldl_cons, ih, processItem_isSome, List.countP_cons]
    by_cases hd : itemId it = some tid <;> simp [hd, or_assoc] <;> omega

lemma foldl_processItem_nodup (pname : String)
    (items : List (Option RawTrack)) :
    ∀ st : CollectState,
      (st.track_metadata.map Prod.fst).Nodup →
        ((items.foldl (processItem pname) st).track_metadata.map
            Prod.fst).Nodup := by
  induction items with
  | nil => intro st h; exact h
  | cons it its ih =>
    intro st h
    rw [List.foldl_cons]
    exact ih _ (processItem_keys_nodup pname st it h)

lemma foldl_processPlaylist_mdLen (tid : String)
    (playlists : List PlaylistData) :
    ∀ st : CollectState,
      mdLen (playlists.foldl processPlaylist st) tid =
        mdLen st tid + occCount playlists tid := by
  induction playlists with
  | nil => intro st; simp [occCount]
  | cons p pls ih =>
    intro st
    rw [List.foldl_cons, ih]
    unfold processPlaylist
    rw [foldl_processItem_mdLen]
    simp [occCount, occInPlaylist]
    omega

lemma foldl_processPlaylist_isSome (tid : String)
    (playlists : List PlaylistData) :
    ∀ st : CollectState,
      (lookupEntry (playlists.foldl processPlaylist st).track_metadata
          tid).isSome ↔
        ((lookupEntry st.track_metadata tid).isSome ∨
          0 < occCount playlists tid) := by
  induction playlists with
  | nil => intro st; simp [occCount]
  | cons p pls ih =>
    intro st
    rw [List.foldl_cons, ih]
    unfold processPlaylist
    rw [foldl_processItem_isSome]
    simp only [occCount, occInPlaylist, List.map_cons, List.sum_cons]
    constructor
    · rintro ((h | h) | h)
      · exact Or.inl h
      · exact Or.inr (by omega)
      · exact Or.inr (by omega)
    · rintro (h | h)
      · exact Or.inl (Or.inl h)
      · rcases Nat.lt_or_ge 0 (p.items.countP
            (fun it => decide (itemId it = some tid))) with hc | hc
        · exact Or.inl (Or.inr hc)
        · exact Or.inr (by omega)

lemma foldl_processPlaylist_nodup (playlists : List PlaylistData) :
    ∀ st : CollectState,
      (st.track_metadata.map Prod.fst).Nodup →
        ((playlists.foldl processPlaylist st).track_metadata.map
            Prod.fst).Nodup := by
  induction playlists with
  | nil => intro st h; exact h
  | cons p pls ih =>
    intro st h
    rw [List.foldl_cons]
    exact ih _ (foldl_processItem_nodup p.pname p.items st h)

/-!
### Helper lemmas: genre consolidation
-/

/-- Invariant of the consolidation state: every bucket's id sequence is
duplicate-free and every id in a bucket is recorded in its seen-set. -/
def BucketInv (st : List (String × List GTrack × Finset String)) : Prop :=
  ∀ p ∈ st, (p.2.1.map GTrack.id).Nodup ∧ ∀ t ∈ p.2.1, t.id ∈ p.2.2

lemma initBuckets_inv (mappings : List (String × List String)) :
    BucketInv (initBuckets mappings) := by
  intro p hp
  simp only [initBuckets, List.mem_map] at hp
  obtain ⟨c, _, rfl⟩ := hp
  simp

lemma addTrack_inv {st : List (String × List GTrack × Finset String)}
    (h : BucketInv st) (mg : String) (t : GTrack) :
    BucketInv (addTrack mg st t) := by
  intro p hp
  simp only [addTrack, List.mem_map] at hp
  obtain ⟨q, hq, rfl⟩ := hp
  obtain ⟨hnd, hsub⟩ := h q hq
  by_cases h1 : q.1 = mg
  · by_cases h2 : t.id ∈ q.2.2
    · simp only [h1, if_pos, if_pos h2]
      exact ⟨hnd, hsub⟩
    · simp only [h1, if_pos, if_neg h2]
      refine ⟨?_, ?_⟩
      · rw [List.map_append]
        rw [List.nodup_append]
        refine ⟨hnd, List.nodup_singleton _, ?_⟩
        intro a ha hb
        simp only [List.map_cons, List.map_nil, List.mem_singleton] at hb
        subst hb
        rcases List.mem_map.mp ha with ⟨u, hu, hui⟩
        exact h2 (hui ▸ hsub u hu)
      · intro u hu
        rcases List.mem_append.mp hu with hu | hu
        · exact Finset.mem_insert_of_mem (hsub u hu)
        · simp only [List.mem_singleton] at hu
          subst hu
          exact Finset.mem_insert_self _ _
  · simp only [if_neg h1]
    exact ⟨hnd, hsub⟩

lemma foldl_addTrack_inv (mg : String) (ts : List GTrack) :
    ∀ st, BucketInv st → BucketInv (ts.foldl (addTrack mg) st) := by
  induction ts with
  | nil => intro st h; exact h
  | cons t ts ih =>
    intro st h
    rw [List.foldl_cons]
    exact ih _ (addTrack_inv h mg t)

lemma consolidate_state_inv (mappings : List (String × List String))
    (genre_data : List (String × List GTrack)) :
    BucketInv (genre_data.foldl
      (fun st sg => sg.2.foldl (addTrack (get_main_genre mappings sg.1)) st)
      (initBuckets mappings)) := by
  have H : ∀ (gd : List (String × List GTrack)) st, BucketInv st →
      BucketInv (gd.foldl
        (fun st sg =>
          sg.2.foldl (addTrack (get_main_genre mappings sg.1)) st) st) := by
    intro gd
    induction gd with
    | nil => intro st h; exact h
    | cons sg gd ih =>
      intro st h
      rw [List.foldl_cons]
      exact ih _ (foldl_addTrack_inv _ _ _ h)
  exact H genre_data _ (initBuckets_inv mappings)

/-!
### Helper lemmas: artist-genre cache
-/

lemma get_artist_genres_cache_mono {remote : String → Option (List String)}
    {st : OrganizerState} {artist_id : String} {genres : List String}
    (h : lookupEntry st.genre_cache artist_id = some genres) (x : String) :
    lookupEntry ((get_artist_genres remote st x).2).genre_cache artist_id
      = some genres := by
  unfold get_artist_genres
  cases hx : lookupEntry st.genre_cache x with
  | some g => simpa using h
  | none =>
    cases hr : remote x with
    | some g =>
      simp only []
      exact lookupEntry_append_of_some h _
    | none => simpa using h

lemma runLookups_cache_mono {remote : String → Option (List String)}
    {artist_id : String} {genres : List String} (ids : List String) :
    ∀ st : OrganizerState,
      lookupEntry st.genre_cache artist_id = some genres →
      lookupEntry (runLookups remote st ids).genre_cache artist_id
        = some genres := by
  induction ids with
  | nil => intro st h; exact h
  | cons x ids ih =>
    intro st h
    unfold runLookups
    rw [List.foldl_cons]
    exact ih _ (get_artist_genres_cache_mono h x)

/-!
### Claim theorems
-/

/-- C1: for every feature record and thresholds, classification returns
`meets_criteria = true` exactly when all four predicates hold — tempo in
`[min_tempo, max_tempo]`, loudness in `[min_loudness, max_loudness]`,
energy ≥ `min_energy`, and mode equal to the required mode — with all
bounds inclusive: a record whose tempo equals `min_tempo` or `max_tempo`
passes the tempo dimension (no tempo reason is emitted), and a record
one unit outside either bound fails it (the tempo reason is emitted and
the verdict is `false`). -/
theorem claim_c1_classifier_iff_boundary :
    (∀ (th : FlowStateThresholds) (f : FeatureRecord),
      (analyze_track th f).1 = true ↔
        ((th.min_tempo ≤ f.tempo ∧ f.tempo ≤ th.max_tempo) ∧
         (th.min_loudness ≤ f.loudness ∧ f.loudness ≤ th.max_loudness) ∧
         th.min_energy ≤ f.energy ∧ f.mode = th.mode)) ∧
    (∀ (th : FlowStateThresholds) (f : FeatureRecord),
      th.min_tempo ≤ th.max_tempo →
      (f.tempo = th.min_tempo ∨ f.tempo = th.max_tempo) →
      tempoReason f ∉ (analyze_track th f).2) ∧
    (∀ (th : FlowStateThresholds) (f : FeatureRecord),
      (f.tempo = th.min_tempo - 1 ∨ f.tempo = th.max_tempo + 1) →
      tempoReason f ∈ (analyze_track th f).2 ∧
        (analyze_track th f).1 = false) := by
  refine ⟨?_, ?_, ?_⟩
  · intro th f
    rw [analyze_track_eq]
    simp
  · intro th f hle hb
    intro hmem
    rw [tempoReason_mem_iff] at hmem
    apply hmem
    rcases hb with h | h
    · exact ⟨le_of_eq h.symm, h ▸ hle⟩
    · exact ⟨h ▸ hle, le_of_eq h⟩
  · intro th f hb
    have hfail : ¬ (th.min_tempo ≤ f.tempo ∧ f.tempo ≤ th.max_tempo) := by
      rcases hb with h | h
      · rintro ⟨h1, _⟩
        rw [h] at h1
        linarith
      · rintro ⟨_, h2⟩
        rw [h] at h2
        linarith
    refine ⟨(tempoReason_mem_iff th f).mpr hfail, ?_⟩
    rw [analyze_track_eq]
    simp [hfail]

/-- Witness for C1 at the default-valued thresholds: tempo exactly at
the lower bound emits no tempo reason; tempo one unit below emits the
tempo reason and fails the verdict. -/
theorem claim_c1_witness :
    tempoReason ⟨140, -3, 1, 1⟩ ∉
        (analyze_track sampleThresholds ⟨140, -3, 1, 1⟩).2 ∧
    (tempoReason ⟨139, -3, 1, 1⟩ ∈
        (analyze_track sampleThresholds ⟨139, -3, 1, 1⟩).2 ∧
      (analyze_track sampleThresholds ⟨139, -3, 1, 1⟩).1 = false) :=
  ⟨claim_c1_classifier_iff_boundary.2.1 sampleThresholds ⟨140, -3, 1, 1⟩
      (by decide) (Or.inl (by decide)),
    claim_c1_classifier_iff_boundary.2.2 sampleThresholds ⟨139, -3, 1, 1⟩
      (Or.inl (by norm_num [sampleThresholds]))⟩

/-- C2 counterexample: a record failing only the mode predicate (mode 0
against required mode 1) yields the single reason `"Minor mode"`, which
does not contain the offending numeric value (`"0"` is not a substring),
so the claim "each \[reason is\] formatted with the offending numeric
value" is false for the mode dimension. -/
theorem claim_c2_counterexample :
    analyze_track sampleThresholds ⟨150, -3, 1, 0⟩ = (false, [modeReason]) ∧
    modeReason = "Minor mode" ∧
    ¬ ((toString (0 : ℤ)).data <:+: modeReason.data) :=
  ⟨by decide, rfl, by decide⟩

/-- C2 (amended): the reasons list contains one explanation per failing
predicate and no others, in the fixed order tempo, loudness, energy,
mode; the tempo, loudness and energy explanations embed the offending
numeric value, while a mode failure contributes the fixed string
`"Minor mode"`; the list is empty exactly when `meets_criteria` is true;
and a record failing tempo, energy and mode simultaneously produces
exactly those three explanations in that order, omitting loudness. -/
theorem claim_c2_reasons_complete :
    (∀ (th : FlowStateThresholds) (f : FeatureRecord),
      (analyze_track th f).2 =
        (if th.min_tempo ≤ f.tempo ∧ f.tempo ≤ th.max_tempo then []
          else [tempoReason f]) ++
        ((if th.min_loudness ≤ f.loudness ∧ f.loudness ≤ th.max_loudness
            then [] else [loudnessReason f]) ++
        ((if th.min_energy ≤ f.energy then [] else [energyReason f]) ++
          (if f.mode = th.mode then [] else [modeReason])))) ∧
    (∀ (th : FlowStateThresholds) (f : FeatureRecord),
      (analyze_track th f).2 = [] ↔ (analyze_track th f).1 = true) ∧
    (∀ f : FeatureRecord,
      (toString f.tempo).data <:+: (tempoReason f).data ∧
      (toString f.loudness).data <:+: (loudnessReason f).data ∧
      (toString f.energy).data <:+: (energyReason f).data) ∧
    (∀ (th : FlowStateThresholds) (f : FeatureRecord),
      ¬ (th.min_tempo ≤ f.tempo ∧ f.tempo ≤ th.max_tempo) →
      (th.min_loudness ≤ f.loudness ∧ f.loudness ≤ th.max_loudness) →
      ¬ (th.min_energy ≤ f.energy) →
      ¬ (f.mode = th.mode) →
      (analyze_track th f).2 = [tempoReason f, energyReason f, modeReason]) := by
  refine ⟨?_, ?_, ?_, ?_⟩
  · intro th f
    exact congrArg Prod.snd (analyze_track_eq th f)
  · intro th f
    exact analyze_track_reasons_nil_iff th f
  · intro f
    refine ⟨⟨"Tempo: ".data, " BPM".data, ?_⟩,
      ⟨"Loudness: ".data, " dB".data, ?_⟩,
      ⟨"Energy: ".data, [], ?_⟩⟩
    · simp [tempoReason, String.data_append]
    · simp [loudnessReason, String.data_append]
    · simp [energyReason, String.data_append]
  · intro th f h1 h2 h3 h4
    have := congrArg Prod.snd (analyze_track_eq th f)
    rw [this]
    simp [h1, h2, h3, h4]

/-- Witness for C2 (amended): a record failing tempo, energy and mode
but passing loudness produces exactly the three expected explanations. -/
theorem claim_c2_witness :
    (analyze_track sampleThresholds ⟨139, -3, 0, 0⟩).2 =
      [tempoReason ⟨139, -3, 0, 0⟩, energyReason ⟨139, -3, 0, 0⟩,
        modeReason] :=
  claim_c2_reasons_complete.2.2.2 sampleThresholds ⟨139, -3, 0, 0⟩
    (by decide) (by decide) (by decide) (by decide)

/-- C3 counterexample: one source (`"P1"`) listing the same track twice —
one distinct source, so k = 1 — produces a metadata entry whose
`playlists` list is `["P1", "P1"]`: the already-recorded source is
appended a second time, and the recorded collection has 2 elements, not
k = 1. -/
theorem claim_c3_counterexample :
    (collect_all_tracks
        [⟨"p1", "P1", [some ⟨some "t1", "N", ["A"]⟩,
          some ⟨some "t1", "N", ["A"]⟩]⟩]).track_metadata
      = [("t1", ⟨"N", "A", ["P1", "P1"]⟩)] ∧
    ¬ (["P1", "P1"] : List String).Nodup :=
  ⟨by decide, by decide⟩

/-- C3 (amended): aggregation yields exactly one metadata entry per
track id (the dict keys are duplicate-free, and an entry exists exactly
when the id occurs at least once); the entry's `playlists` list gains
one element per occurrence of the track across the sources — so its
length is k when the track appears exactly once in each of k distinct
sources, but a source is appended again on every repeat occurrence. -/
theorem claim_c3_dedup_one_entry :
    (∀ playlists : List PlaylistData,
      ((collect_all_tracks playlists).track_metadata.map Prod.fst).Nodup) ∧
    (∀ (playlists : List PlaylistData) (tid : String) (m : TrackMeta),
      lookupEntry (collect_all_tracks playlists).track_metadata tid = some m →
      m.playlists.length = occCount playlists tid) ∧
    (∀ (playlists : List PlaylistData) (tid : String),
      (lookupEntry (collect_all_tracks playlists).track_metadata
          tid).isSome ↔ 0 < occCount playlists tid) := by
  refine ⟨?_, ?_, ?_⟩
  · intro pls
    exact foldl_processPlaylist_nodup pls ⟨∅, []⟩ (by simp)
  · intro pls tid m hm
    have h := foldl_processPlaylist_mdLen tid pls ⟨∅, []⟩
    unfold collect_all_tracks at hm
    simp only [mdLen, hm, lookupEntry, Option.map_some', Option.getD_some]
      at h
    simpa using h
  · intro pls tid
    have h := foldl_processPlaylist_isSome tid pls ⟨∅, []⟩
    unfold collect_all_tracks
    rw [h]
    simp [lookupEntry]

/-- Witness for C3 (amended): a track appearing exactly once in each of
two distinct sources ends with a `playlists` list of length 2. -/
theorem claim_c3_witness :
    (⟨"N", "A", ["P1", "P2"]⟩ : TrackMeta).playlists.length =
      occCount
        [⟨"p1", "P1", [some ⟨some "t1", "N", ["A"]⟩]⟩,
         ⟨"p2", "P2", [some ⟨some "t1", "N", ["A"]⟩]⟩] "t1" :=
  claim_c3_dedup_one_entry.2.1
    [⟨"p1", "P1", [some ⟨some "t1", "N", ["A"]⟩]⟩,
     ⟨"p2", "P2", [some ⟨some "t1", "N", ["A"]⟩]⟩] "t1"
    ⟨"N", "A", ["P1", "P2"]⟩ (by decide)

/-- C4: evaluation at the failing input.  A single source listing track
ids `"idB"` then `"idA"` produces the set `{"idB", "idA"}` — the code
returns `list(all_track_ids)`, an enumeration of this Python set in
hash-dependent, unspecified order — while the insertion-ordered
`track_metadata` dict does record the first-seen order
`["idB", "idA"]`. -/
theorem claim_c4_set_enumeration :
    (collect_all_tracks
        [⟨"p", "P", [some ⟨some "idB", "B", []⟩,
          some ⟨some "idA", "A", []⟩]⟩]).all_track_ids
      = {"idB", "idA"} ∧
    (collect_all_tracks
        [⟨"p", "P", [some ⟨some "idB", "B", []⟩,
          some ⟨some "idA", "A", []⟩]⟩]).track_metadata.map Prod.fst
      = ["idB", "idA"] :=
  ⟨by decide, by decide⟩

/-- C5: for every id list and batch size B > 0, the batching produces
exactly `⌈N/B⌉` batches, each of size at most B, whose concatenation is
exactly the input list (so the union of requested ids equals the input
with no omissions and no repeats); and the fetch loop issues exactly
these batches, one remote call per batch, never exceeding the caller's
configured batch size. -/
theorem claim_c5_batch_coverage :
    ∀ (track_ids : List String) (B : ℕ), 0 < B →
      ((track_batches B track_ids).length = (track_ids.length + B - 1) / B ∧
       (∀ b ∈ track_batches B track_ids, b.length ≤ B) ∧
       (track_batches B track_ids).flatten = track_ids ∧
       ∀ fetchFn (th : FlowStateThresholds)
          (md : List (String × TrackMeta)),
          (analyze_tracks fetchFn th track_ids md B).2 =
            track_batches B track_ids) := by
  intro ids B hB
  exact ⟨track_batches_length B ids, track_batches_size_le B ids,
    track_batches_flatten hB ids,
    fun fetchFn th md => analyze_tracks_calls fetchFn th ids md B⟩

/-- Witness for C5 at three ids and batch size 2: two batches whose
concatenation is the input. -/
theorem claim_c5_witness :
    (0 : ℕ) < 2 ∧ (track_batches 2 ["a", "b", "c"]).flatten = ["a", "b", "c"] :=
  ⟨by decide, (claim_c5_batch_coverage ["a", "b", "c"] 2 (by decide)).2.2.1⟩

/-- C6 counterexample: with a feature-fetch oracle that signals a
recoverable failure on every call, the failing batch `["a", "b"]` is
attempted exactly once — it is never retried, contradicting the claimed
retry-up-to-a-configured-maximum behavior — and the run then proceeds to
the next batch (`["c"]` is still requested) and returns normally with no
rows. -/
theorem claim_c6_counterexample :
    analyze_tracks (fun _ => none) sampleThresholds ["a", "b", "c"] [] 2
      = ([], [["a", "b"], ["c"]]) ∧
    ((analyze_tracks (fun _ => none) sampleThresholds
        ["a", "b", "c"] [] 2).2).count ["a", "b"] = 1 :=
  ⟨by decide, by decide⟩

/-- C6 (amended): whatever the feature-fetch oracle does, the fetch loop
issues exactly one remote call per batch, in batch order — a batch whose
fetch fails is attempted exactly once, never retried — and with an
always-failing oracle the run still terminates normally, having
attempted every batch once and produced no rows: a persistently failing
batch never aborts the run. -/
theorem claim_c6_no_retry_continue :
    (∀ fetchFn (th : FlowStateThresholds) (ids : List String)
        (md : List (String × TrackMeta)) (B : ℕ),
      (analyze_tracks fetchFn th ids md B).2 = track_batches B ids) ∧
    (∀ (th : FlowStateThresholds) (ids : List String)
        (md : List (String × TrackMeta)) (B : ℕ),
      analyze_tracks (fun _ => none) th ids md B =
        ([], track_batches B ids)) := by
  refine ⟨?_, ?_⟩
  · intro fetchFn th ids md B
    exact analyze_tracks_calls fetchFn th ids md B
  · intro th ids md B
    have h1 := analyze_tracks_fail_results th ids md B
    have h2 := analyze_tracks_calls (fun _ => none) th ids md B
    exact Prod.ext h1 h2

/-- C7 counterexample: a track listed under `"edm"` (mapped to
ELECTRONIC) and `"punk"` (mapped to ROCK_METAL) in the repository's own
taxonomy ends up in **two** buckets: the dedup set is per-bucket only,
so "every TrackId appears in at most one bucket" is false. -/
theorem claim_c7_counterexample :
    consolidate_genres genre_mappings
        [("edm", [⟨"a", "A"⟩]), ("punk", [⟨"a", "A"⟩])]
      = [("ELECTRONIC", [⟨"a", "A"⟩]), ("ROCK_METAL", [⟨"a", "A"⟩])] ∧
    (consolidate_genres genre_mappings
        [("edm", [⟨"a", "A"⟩]), ("punk", [⟨"a", "A"⟩])]).countP
        (fun p => p.2.any fun t => decide (t.id = "a")) = 2 :=
  ⟨by decide, by decide⟩

/-- C7 (amended): within each bucket every TrackId appears at most once
(the id sequence of every output bucket is duplicate-free); in
particular a track appearing under two subgenres that both map to the
same category is admitted to that category's bucket exactly once — but a
track whose subgenres map to different categories appears in each such
bucket. -/
theorem claim_c7_bucket_dedup :
    (∀ (mappings : List (String × List String))
        (genre_data : List (String × List GTrack))
        (c : String) (ts : List GTrack),
      (c, ts) ∈ consolidate_genres mappings genre_data →
      (ts.map GTrack.id).Nodup) ∧
    consolidate_genres genre_mappings
        [("edm", [⟨"a", "A"⟩]), ("dubstep", [⟨"a", "A"⟩])]
      = [("ELECTRONIC", [⟨"a", "A"⟩])] := by
  refine ⟨?_, by decide⟩
  intro mappings genre_data c ts hmem
  unfold consolidate_genres at hmem
  rcases List.mem_map.mp hmem with ⟨p, hp, heq⟩
  have hfinal := List.mem_of_mem_filter hp
  have hinv := consolidate_state_inv mappings genre_data p hfinal
  have hts : ts = p.2.1 := by
    have := congrArg Prod.snd heq
    simpa using this.symm
  rw [hts]
  exact hinv.1

/-- Witness for C7 (amended): the single ELECTRONIC bucket of the
two-subgenre run has a duplicate-free id sequence. -/
theorem claim_c7_witness :
    (([⟨"a", "A"⟩] : List GTrack).map GTrack.id).Nodup :=
  claim_c7_bucket_dedup.1 genre_mappings
    [("edm", [⟨"a", "A"⟩]), ("dubstep", [⟨"a", "A"⟩])]
    "ELECTRONIC" [⟨"a", "A"⟩]
    (by rw [claim_c7_bucket_dedup.2]; exact List.mem_singleton_self _)

/-- C8: consolidation lower-cases each subgenre label and routes its
tracks to the single taxonomy category whose subgenre set contains the
lowered label (when exactly one contains it), routes to the reserved
category `"OTHER"` when no category matches, and omits zero-track
buckets from the result; in particular, taxonomy
`[ELECTRONIC ↦ {edm}, ROCK_METAL ↦ {punk}]` with input
`[EDM ↦ [a], jazz ↦ [b]]` yields exactly an ELECTRONIC bucket `[a]` and
an OTHER bucket `[b]`, with no ROCK_METAL bucket. -/
theorem claim_c8_taxonomy_routing :
    (∀ (mappings : List (String × List String))
        (genre_data : List (String × List GTrack))
        (c : String) (ts : List GTrack),
      (c, ts) ∈ consolidate_genres mappings genre_data → ts ≠ []) ∧
    (∀ (mappings : List (String × List String)) (s c : String)
        (subs : List String),
      (c, subs) ∈ mappings → pyLower s ∈ subs →
      (∀ p ∈ mappings, pyLower s ∈ p.2 → p = (c, subs)) →
      get_main_genre mappings s = c) ∧
    (∀ (mappings : List (String × List String)) (s : String),
      (∀ p ∈ mappings, pyLower s ∉ p.2) →
      get_main_genre mappings s = "OTHER") ∧
    consolidate_genres [("ELECTRONIC", ["edm"]), ("ROCK_METAL", ["punk"])]
        [("EDM", [⟨"a", "A"⟩]), ("jazz", [⟨"b", "B"⟩])]
      = [("ELECTRONIC", [⟨"a", "A"⟩]), ("OTHER", [⟨"b", "B"⟩])] := by
  refine ⟨?_, ?_, ?_, by decide⟩
  · intro mappings genre_data c ts hmem
    unfold consolidate_genres at hmem
    rcases List.mem_map.mp hmem with ⟨p, hp, heq⟩
    have hne := List.of_mem_filter hp
    have hts : ts = p.2.1 := by
      have := congrArg Prod.snd heq
      simpa using this.symm
    rw [hts]
    simpa using hne
  · intro mappings s c subs hmem hs huniq
    unfold get_main_genre
    cases hf : mappings.find? (fun p => decide (pyLower s ∈ p.2)) with
    | none =>
      exfalso
      have := List.find?_eq_none.mp hf (c, subs) hmem
      simp only [decide_eq_true_eq] at this
      exact this hs
    | some q =>
      have hq1 := @List.find?_some (String × List String)
        (fun p => decide (pyLower s ∈ p.2)) q mappings hf
      simp only [decide_eq_true_eq] at hq1
      have hq2 : q ∈ mappings := List.mem_of_find?_eq_some hf
      have := huniq q hq2 hq1
      show (match List.find? (fun p => decide (pyLower s ∈ p.2)) mappings with
        | some p => p.1
        | none => "OTHER") = c
      rw [hf, this]
  · intro mappings s hnone
    unfold get_main_genre
    have hf : mappings.find? (fun p => decide (pyLower s ∈ p.2)) = none := by
      rw [List.find?_eq_none]
      intro p hp
      simp only [decide_eq_true_eq]
      exact hnone p hp
    simp [hf]

/-- Witness for C8: routing `"EDM"` through the two-category example
taxonomy lands in ELECTRONIC. -/
theorem claim_c8_witness :
    get_main_genre [("ELECTRONIC", ["edm"]), ("ROCK_METAL", ["punk"])]
        "EDM" = "ELECTRONIC" :=
  claim_c8_taxonomy_routing.2.1
    [("ELECTRONIC", ["edm"]), ("ROCK_METAL", ["punk"])]
    "EDM" "ELECTRONIC" ["edm"] (by decide) (by decide) (by decide)

/-- C9 counterexample: a taxonomy mapping the subgenre `"x"` into two
different categories is accepted without any validation error, and the
run processes its track normally, routing it to the first matching
category — nothing fails fast at load time. -/
theorem claim_c9_counterexample :
    consolidate_genres [("A", ["x"]), ("B", ["x"])] [("x", [⟨"t", "T"⟩])]
      = [("A", [⟨"t", "T"⟩])] := by decide

/-- C9 (amended): no disjointness validation is performed at load time;
a taxonomy with a duplicate subgenre across categories is accepted, and
lookup resolves to the first matching category in taxonomy iteration
order, regardless of any later category that also contains the label. -/
theorem claim_c9_first_match_wins :
    (∀ (pre : List (String × List String)) (c : String)
        (subs : List String) (post : List (String × List String))
        (s : String),
      pyLower s ∈ subs →
      (∀ p ∈ pre, pyLower s ∉ p.2) →
      get_main_genre (pre ++ (c, subs) :: post) s = c) ∧
    consolidate_genres [("A", ["x"]), ("B", ["x"])]
        [("X", [⟨"t", "T"⟩])] = [("A", [⟨"t", "T"⟩])] := by
  refine ⟨?_, by decide⟩
  intro pre c subs post s hs hpre
  unfold get_main_genre
  have hfpre : pre.find? (fun p => decide (pyLower s ∈ p.2)) = none := by
    rw [List.find?_eq_none]
    intro p hp
    simp only [decide_eq_true_eq]
    exact hpre p hp
  show (match (pre ++ (c, subs) :: post).find?
      (fun p => decide (pyLower s ∈ p.2)) with
    | some p => p.1
    | none => "OTHER") = c
  rw [List.find?_append, hfpre]
  simp [hs]

/-- Witness for C9 (amended): with the duplicated two-category taxonomy,
lookup of `"x"` resolves to the first category `"A"`. -/
theorem claim_c9_witness :
    get_main_genre [("A", ["x"]), ("B", ["x"])] "x" = "A" :=
  claim_c9_first_match_wins.1 [] "A" ["x"] [("B", ["x"])] "x"
    (by decide) (by simp)

/-- C10: the artist-genre lookup returns a cached list verbatim, with no
state change and no remote call; a cache miss whose remote lookup fails
returns the empty list and leaves the cache unchanged (one remote call
is logged); a successful miss caches its result; and a cached entry
survives any sequence of subsequent calls, so every later call with the
same identifier returns the identical list without touching the
remote service. -/
theorem claim_c10_cache_stable :
    (∀ (remote : String → Option (List String)) (st : OrganizerState)
        (artist_id : String) (genres : List String),
      lookupEntry st.genre_cache artist_id = some genres →
      get_artist_genres remote st artist_id = (genres, st)) ∧
    (∀ (remote : String → Option (List String)) (st : OrganizerState)
        (artist_id : String),
      lookupEntry st.genre_cache artist_id = none →
      remote artist_id = none →
      get_artist_genres remote st artist_id =
        ([], ⟨st.genre_cache, st.remote_calls ++ [artist_id]⟩)) ∧
    (∀ (remote : String → Option (List String)) (st : OrganizerState)
        (artist_id : String) (genres : List String),
      lookupEntry st.genre_cache artist_id = none →
      remote artist_id = some genres →
      (get_artist_genres remote st artist_id).1 = genres ∧
      lookupEntry ((get_artist_genres remote st artist_id).2).genre_cache
          artist_id = some genres) ∧
    (∀ (remote : String → Option (List String)) (st : OrganizerState)
        (artist_id : String) (genres : List String) (ids : List String),
      lookupEntry st.genre_cache artist_id = some genres →
      get_artist_genres remote (runLookups remote st ids) artist_id =
        (genres, runLookups remote st ids)) := by
  refine ⟨?_, ?_, ?_, ?_⟩
  · intro remote st artist_id genres h
    simp [get_artist_genres, h]
  · intro remote st artist_id h1 h2
    simp [get_artist_genres, h1, h2]
  · intro remote st artist_id genres h1 h2
    refine ⟨by simp [get_artist_genres, h1, h2], ?_⟩
    simp only [get_artist_genres, h1, h2]
    rw [lookupEntry_append_of_none h1]
    simp [lookupEntry]
  · intro remote st artist_id genres ids h
    have hc := @runLookups_cache_mono remote artist_id genres ids st h
    simp [get_artist_genres, hc]

/-- Witness for C10: with a one-artist remote service and a warm cache,
a repeated lookup returns the cached list and leaves the state
untouched. -/
theorem claim_c10_witness :
    get_artist_genres (fun a => if a = "ar1" then some ["edm"] else none)
        ⟨[("ar1", ["edm"])], []⟩ "ar1"
      = (["edm"], ⟨[("ar1", ["edm"])], []⟩) :=
  claim_c10_cache_stable.1 (fun a => if a = "ar1" then some ["edm"] else none)
    ⟨[("ar1", ["edm"])], []⟩ "ar1" ["edm"] (by decide)
